import Mathlib

/-!
Shallow embedding of `src/graphGenerator.ts` (agent-chain-optimizer-visualizer).

The module is a pure data transformation: `generateGraphData` maps a workflow
(steps with dependency lists, optional per-step analysis) to a `{nodes, edges}`
structure, and `generateSVG` / `generateDot` render that structure to strings.

Numeric fields (latency, cost, token counts) are only copied around, never
computed with, so they are embedded as `Int`.  TypeScript optional fields
(`latency?: number`) are embedded as `Option`; a field set to `undefined`
(as in `latency: analysis?.latency` with no matching analysis) is `none`.
The `d3` force-simulation calls in `generateSVG` have no effect on the
returned string and are omitted.
-/

structure WorkflowStep where
  id : String
  agentId : String
  agentName : String
  dependencies : List String
  inputTokens : Option Int := none
  outputTokens : Option Int := none
deriving DecidableEq, Repr

structure StepAnalysis where
  stepId : String
  latency : Int
  cost : Int
  isBottleneck : Bool
deriving DecidableEq, Repr

structure Workflow where
  id : String
  steps : List WorkflowStep
  stepAnalysis : Option (List StepAnalysis) := none
deriving DecidableEq, Repr

/-- The `type` field of a node is one of the string literals
`"agent" | "start" | "end"`, embedded as `String` exactly as in the source. -/
structure GraphNode where
  id : String
  label : String
  type : String
  latency : Option Int := none
  cost : Option Int := none
  isBottleneck : Option Bool := none
deriving DecidableEq, Repr

structure GraphEdge where
  source : String
  target : String
  label : Option String := none
deriving DecidableEq, Repr

structure GraphData where
  nodes : List GraphNode
  edges : List GraphEdge
deriving DecidableEq, Repr

/-- Embeds `new Map((workflow.stepAnalysis || []).map(s => [s.stepId, s])).get(k)`:
a JS `Map` built from an entry list keeps the **last** entry for a duplicated
key, so the lookup finds the last entry whose `stepId` equals `k`. -/
def stepAnalysisLookup (sa : List StepAnalysis) (k : String) : Option StepAnalysis :=
  sa.reverse.find? (fun s => s.stepId == k)

/-- Lines 83-88 of the source:
```
const dependentSteps = new Set<string>();
for (const step of workflow.steps) {
  for (const dep of step.dependencies) {
    dependentSteps.add(step.id);
  }
}
```
Note the body adds `step.id` (not `dep`); the loop variable `dep` is unused,
so the set collects the ids of steps having a non-empty dependency list.
Only membership in the set is consumed, so a `List` models the JS `Set`. -/
def dependentSteps (steps : List WorkflowStep) : List String :=
  steps.foldl
    (fun acc step => step.dependencies.foldl (fun acc2 _dep => acc2 ++ [step.id]) acc)
    []

/-- Function `generateGraphData` (lines 30-121 of the source). -/
def generateGraphData (workflow : Workflow) : GraphData :=
  let sa := workflow.stepAnalysis.getD []
  let nodes : List GraphNode :=
    [{ id := "start", label := "Start", type := "start" }] ++
    workflow.steps.map (fun step =>
      let analysis := stepAnalysisLookup sa step.id
      { id := step.id
        label := step.agentName
        type := "agent"
        latency := analysis.map (fun a => a.latency)
        cost := analysis.map (fun a => a.cost)
        isBottleneck := analysis.map (fun a => a.isBottleneck) }) ++
    [{ id := "end", label := "End", type := "end" }]
  let deps := dependentSteps workflow.steps
  let edges : List GraphEdge :=
    (workflow.steps.flatMap (fun step =>
      if step.dependencies.length = 0 then
        [{ source := "start", target := step.id }]
      else [])) ++
    (workflow.steps.flatMap (fun step =>
      step.dependencies.map (fun dep => { source := dep, target := step.id }))) ++
    (workflow.steps.flatMap (fun step =>
      if step.id ∈ deps then []
      else [{ source := step.id, target := "end" }]))
  { nodes := nodes, edges := edges }

/-- Lines 153-154 of the source:
`let className = `node-${node.type}`; if (node.isBottleneck) className = 'node-bottleneck';`
(`node.isBottleneck` is truthy exactly when it is `true`, so `undefined`
behaves as `false`). -/
def svgNodeClass (node : GraphNode) : String :=
  if node.isBottleneck.getD false then "node-bottleneck" else "node-" ++ node.type

/-- The embedded `<style>` block of `generateSVG` (lines 137-144; a single
template literal in the source). -/
def svgStyleBlock : String :=
  "<style>\n    .node-agent \x7b fill: #4a90d9; \x7d\n    .node-start \x7b fill: #27ae60; \x7d\n    .node-end \x7b fill: #e74c3c; \x7d\n    .node-bottleneck \x7b fill: #f39c12; \x7d\n    .edge \x7b stroke: #999; stroke-width: 2; \x7d\n    .label \x7b font-family: Arial; font-size: 12px; \x7d\n  </style>"

/-- One `<line>` element per edge (line 148 of the source). -/
def svgEdgeElem (edge : GraphEdge) : String :=
  "<line class=\"edge\" x1=\"0\" y1=\"0\" x2=\"0\" y2=\"0\" data-source=\"" ++
    (edge.source ++ ("\" data-target=\"" ++ (edge.target ++ "\"/>")))

/-- One `<circle>` plus one `<text>` element per node (lines 155-156). -/
def svgNodeElems (node : GraphNode) : String :=
  "<circle class=\"" ++
    (svgNodeClass node ++
      ("\" r=\"20\" cx=\"0\" cy=\"0\" data-id=\"" ++
        (node.id ++
          ("\"/><text class=\"label\" x=\"0\" y=\"35\" text-anchor=\"middle\">" ++
            (node.label ++ "</text>")))))

/-- Function `generateSVG` (lines 126-162 of the source); the `d3`
force-simulation block has no effect on the returned string.  Each TS
statement appending a template literal is embedded as appending the fully
built piece (the two per-node literals are appended as one concatenation). -/
def generateSVG (data : GraphData) (width : Nat := 800) (height : Nat := 600) : String :=
  let svgContent :=
    "<svg width=\"" ++ toString width ++ "\" height=\"" ++ toString height ++
      "\" xmlns=\"http://www.w3.org/2000/svg\">"
  let svgContent := svgContent ++ svgStyleBlock
  let svgContent := data.edges.foldl (fun acc edge => acc ++ svgEdgeElem edge) svgContent
  let svgContent := data.nodes.foldl (fun acc node => acc ++ svgNodeElems node) svgContent
  svgContent ++ "</svg>"

/-- Attribute string of one node line of `generateDot` (lines 174-182). -/
def dotAttrs (node : GraphNode) : String :=
  let attrs := "label=\"" ++ (node.label ++ "\"")
  if node.type = "start" then
    attrs ++ ", shape=circle, style=filled, fillcolor=green"
  else if node.type = "end" then
    attrs ++ ", shape=circle, style=filled, fillcolor=red"
  else if node.isBottleneck.getD false then
    attrs ++ ", style=filled, fillcolor=orange"
  else attrs

/-- One node line of `generateDot` (line 184; a template literal evaluated
before being appended to the accumulator). -/
def dotNodeLine (node : GraphNode) : String :=
  "  \"" ++ (node.id ++ ("\" [" ++ (dotAttrs node ++ "];\n")))

/-- One edge line of `generateDot` (line 189). -/
def dotEdgeLine (edge : GraphEdge) : String :=
  "  \"" ++ (edge.source ++ ("\" -> \"" ++ (edge.target ++ "\";\n")))

/-- Function `generateDot` (lines 167-195 of the source). -/
def generateDot (data : GraphData) : String :=
  let dot := "digraph workflow \x7b\n"
  let dot := dot ++ "  rankdir=LR;\n"
  let dot := dot ++ "  node [shape=box, style=rounded];\n"
  let dot := data.nodes.foldl (fun acc node => acc ++ dotNodeLine node) dot
  let dot := data.edges.foldl (fun acc edge => acc ++ dotEdgeLine edge) dot
  dot ++ "\x7d\n"

/-- Node-class rule as worded by the spec (section 4.2, first match wins:
start, then end, then bottleneck, then agent); written for comparison with
`svgNodeClass`, the rule the source actually implements. -/
def specNodeClass (node : GraphNode) : String :=
  if node.type = "start" then "node-start"
  else if node.type = "end" then "node-end"
  else if node.isBottleneck.getD false then "node-bottleneck"
  else "node-agent"

/-- Node-class rule matching the source: the bottleneck flag is checked last
and overrides the variant class, so it effectively has top priority. -/
def specNodeClassAmended (node : GraphNode) : String :=
  if node.isBottleneck.getD false then "node-bottleneck"
  else if node.type = "start" then "node-start"
  else if node.type = "end" then "node-end"
  else "node-agent"

/-- Number of occurrences of the two-character sequence `->` in a character
list (occurrences cannot overlap since the two characters differ). -/
def countArrows : List Char → Nat
  | [] => 0
  | [_] => 0
  | a :: b :: rest => (if a = '-' ∧ b = '>' then 1 else 0) + countArrows (b :: rest)

/-- Does `pat` occur at the head of `l`? -/
def leadsWith : List Char → List Char → Bool
  | [], _ => true
  | _ :: _, [] => false
  | a :: ps, b :: l => a == b && leadsWith ps l

/-- Does `pat` occur as a contiguous run anywhere inside `l`? -/
def containsSub : List Char → List Char → Bool
  | [], pat => leadsWith pat []
  | a :: t, pat => leadsWith pat (a :: t) || containsSub t pat

/-- The spec's worked example (section 8): step `s1` (agent "Fetcher", no
dependencies) and step `s2` (agent "Parser", depends on `s1`), no analysis. -/
def exW : Workflow :=
  { id := "W"
    steps := [
      { id := "s1", agentId := "a1", agentName := "Fetcher", dependencies := [] },
      { id := "s2", agentId := "a2", agentName := "Parser", dependencies := ["s1"] } ] }

/-- Workflow whose single step lists a dependency id that is not the id of
any step. -/
def wGhost : Workflow :=
  { id := "G"
    steps := [
      { id := "s1", agentId := "a1", agentName := "A", dependencies := ["ghost"] } ] }

/-- Workflow whose single step has an agent name containing the two-character
sequence `->`. -/
def wArrow : Workflow :=
  { id := "R"
    steps := [
      { id := "s1", agentId := "a1", agentName := "x->y", dependencies := [] } ] }

/-- Workflow of `exW` extended with a `stepAnalysis` entry for step `s1`. -/
def exWA : Workflow :=
  { id := "WA"
    steps := exW.steps
    stepAnalysis := some [
      { stepId := "s1", latency := 5, cost := 3, isBottleneck := true } ] }

/-- A start node whose bottleneck flag is set (constructible `GraphData`;
`generateGraphData` itself never sets the flag on a start node). -/
def bnStart : GraphNode :=
  { id := "start", label := "Start", type := "start", isBottleneck := some true }

/-- C1: for the spec's example workflow `exW` (steps `s1` "Fetcher" with no
dependencies and `s2` "Parser" depending on `s1`, no stepAnalysis), the claim
expects edges exactly \x7bstart→s1, s1→s2, s2→end\x7d.  Evaluating the code:
the nodes are `[start, s1, s2, end]` as claimed, but the edge list is
`[start→s1, s1→s2, s1→end]` — the code emits `s1→end` instead of `s2→end`,
because `dependentSteps` collects the ids of steps *having* dependencies
instead of the ids *referenced as* dependencies. -/
theorem generateGraphData_example_eval :
    generateGraphData exW =
      { nodes := [
          { id := "start", label := "Start", type := "start" },
          { id := "s1", label := "Fetcher", type := "agent" },
          { id := "s2", label := "Parser", type := "agent" },
          { id := "end", label := "End", type := "end" } ],
        edges := [
          { source := "start", target := "s1" },
          { source := "s1", target := "s2" },
          { source := "s1", target := "end" } ] } ∧
    ({ source := "s2", target := "end" } : GraphEdge) ∉ (generateGraphData exW).edges := by
  decide

/-- C2: the claim says the builder computes the set of step ids referenced in
some other step's dependency list and adds `step.id → end` exactly for steps
outside that set.  Evaluating the code on `exW`: `"s2"` appears in no
dependency list, yet no edge `s2 → end` is produced, while `s1` (which is
referenced by `s2`) does get `s1 → end`; the computed set `dependentSteps` is
`["s2"]`, the ids of steps having a non-empty dependency list. -/
theorem generateGraphData_end_edges_eval :
    exW.steps.countP (fun t => t.dependencies.contains "s2") = 0 ∧
    (generateGraphData exW).edges.countP
      (fun e => e.source == "s2" && e.target == "end") = 0 ∧
    (generateGraphData exW).edges.countP
      (fun e => e.source == "s1" && e.target == "end") = 1 ∧
    dependentSteps exW.steps = ["s2"] := by
  decide

/-- C10: in builder-produced graph data, any node tagged `start` or `end`
(the two synthetic nodes) carries no latency, cost, or bottleneck values:
all three optional fields are absent. -/
theorem generateGraphData_start_end_no_metrics (w : Workflow) :
    ∀ n ∈ (generateGraphData w).nodes,
      n.type = "start" ∨ n.type = "end" →
      n.latency = none ∧ n.cost = none ∧ n.isBottleneck = none := by
  intro n hn htype
  simp only [generateGraphData, List.singleton_append, List.mem_cons, List.mem_append,
    List.mem_map, List.mem_singleton] at hn
  rcases hn with (rfl | ⟨s, _hs, rfl⟩) | (rfl | h)
  · exact ⟨rfl, rfl, rfl⟩
  · rcases htype with h | h <;> simp at h
  · exact ⟨rfl, rfl, rfl⟩
  · simp at h

/-- C10 witness: the start node of the example graph carries none of the
three metric fields. -/
theorem generateGraphData_start_end_no_metrics_witness :
    ({ id := "start", label := "Start", type := "start" } : GraphNode).latency = none ∧
    ({ id := "start", label := "Start", type := "start" } : GraphNode).cost = none ∧
    ({ id := "start", label := "Start", type := "start" } : GraphNode).isBottleneck = none :=
  generateGraphData_start_end_no_metrics exW
    { id := "start", label := "Start", type := "start" } (by decide) (by decide)

/-- C4: the node list has length `N + 2` for `N` input steps, its first node
is the start node, its last node is the end node, and the node at position
`i + 1` is the agent node of input step `i` (same id, label = agent name,
type `agent`), so agent nodes appear in input order between start and end. -/
theorem generateGraphData_nodes_shape (w : Workflow) :
    (generateGraphData w).nodes.length = w.steps.length + 2 ∧
    (generateGraphData w).nodes.head? =
      some { id := "start", label := "Start", type := "start" } ∧
    (generateGraphData w).nodes.getLast? =
      some { id := "end", label := "End", type := "end" } ∧
    ∀ i, i < w.steps.length →
      ((generateGraphData w).nodes[i + 1]?).map (fun n => (n.id, n.label, n.type)) =
        (w.steps[i]?).map (fun s => (s.id, s.agentName, "agent")) := by
  refine ⟨?_, ?_, ?_, ?_⟩
  · simp [generateGraphData]
  · simp [generateGraphData]
  · simp [generateGraphData, List.getLast?_cons, List.getLast?_append]
  · intro i hi
    simp only [generateGraphData, List.singleton_append]
    rw [List.getElem?_append_left (by simpa using hi), List.getElem?_cons_succ,
      List.getElem?_map, List.getElem?_eq_getElem hi]
    rfl

/-- C4 witness: position 2 of the example graph's node list is the agent node
of input step 1 (`s2`, "Parser"). -/
theorem generateGraphData_nodes_shape_witness :
    ((generateGraphData exW).nodes[1 + 1]?).map (fun n => (n.id, n.label, n.type)) =
      (exW.steps[1]?).map (fun s => (s.id, s.agentName, "agent")) :=
  (generateGraphData_nodes_shape exW).2.2.2 1 (by decide)

/-- Helper: summing `f` over a list of steps with pairwise distinct ids gives
1 when `f` is 1 on the distinguished member `s` and 0 on every step whose id
differs from `s.id`. -/
lemma map_sum_eq_one (s : WorkflowStep) (f : WorkflowStep → Nat)
    (hfs : f s = 1) (hother : ∀ t, t.id ≠ s.id → f t = 0) :
    ∀ steps : List WorkflowStep, s ∈ steps → (steps.map (fun t => t.id)).Nodup →
      (steps.map f).sum = 1 := by
  intro steps
  induction steps with
  | nil => intro hs _; cases hs
  | cons t rest ih =>
    intro hs hnodup
    simp only [List.map_cons, List.nodup_cons, List.mem_map] at hnodup
    obtain ⟨hnotin, hnd⟩ := hnodup
    rcases List.mem_cons.mp hs with rfl | hmem
    · have hz : (rest.map f).sum = 0 := by
        apply List.sum_eq_zero
        intro x hx
        obtain ⟨u, hu, rfl⟩ := List.mem_map.mp hx
        exact hother u (fun hid => hnotin ⟨u, hu, hid⟩)
      simp [hfs, hz]
    · have htid : t.id ≠ s.id := by
        intro hid
        exact hnotin ⟨s, hmem, hid.symm⟩
      simp [hother t htid, ih hmem hnd]

/-- Helper: a step with the same id as a member `s` of a duplicate-free step
list is `s` itself. -/
lemma eq_of_mem_of_id_eq {steps : List WorkflowStep}
    (hnodup : (steps.map (fun t => t.id)).Nodup)
    {t s : WorkflowStep} (ht : t ∈ steps) (hs : s ∈ steps) (hid : t.id = s.id) :
    t = s :=
  List.inj_on_of_nodup_map hnodup ht hs hid

/-- C5: for a workflow whose step ids are pairwise distinct and never equal to
the sentinel `"start"` (both upstream contracts of the data model), every step
with an empty dependency list yields exactly one edge `start → step.id`. -/
theorem generateGraphData_start_edge_unique (w : Workflow) (s : WorkflowStep)
    (hs : s ∈ w.steps) (hdep : s.dependencies = [])
    (hnodup : (w.steps.map (fun t => t.id)).Nodup)
    (hstart : ∀ t ∈ w.steps, t.id ≠ "start") :
    (generateGraphData w).edges.countP
      (fun e => e.source == "start" && e.target == s.id) = 1 := by
  simp only [generateGraphData]
  rw [List.countP_append, List.countP_append]
  have h1 : (w.steps.flatMap (fun step =>
      if step.dependencies.length = 0 then
        [({ source := "start", target := step.id } : GraphEdge)]
      else [])).countP (fun e => e.source == "start" && e.target == s.id) = 1 := by
    rw [List.countP_flatMap]
    apply map_sum_eq_one s _ _ _ w.steps hs hnodup
    · simp [hdep, List.countP_cons]
    · intro t htid
      by_cases hc : t.dependencies.length = 0 <;>
        simp [hc, List.countP_cons, htid]
  have h2 : (w.steps.flatMap (fun step =>
      step.dependencies.map (fun dep =>
        ({ source := dep, target := step.id } : GraphEdge)))).countP
      (fun e => e.source == "start" && e.target == s.id) = 0 := by
    rw [List.countP_flatMap]
    apply List.sum_eq_zero
    intro x hx
    obtain ⟨t, ht, rfl⟩ := List.mem_map.mp hx
    by_cases htid : t.id = s.id
    · have : t = s := eq_of_mem_of_id_eq hnodup ht hs htid
      subst this
      simp [hdep]
    · simp only [Function.comp_apply, List.countP_map]
      rw [List.countP_eq_zero]
      intro d _hd
      simp [htid]
  have h3 : (w.steps.flatMap (fun step =>
      if step.id ∈ dependentSteps w.steps then []
      else [({ source := step.id, target := "end" } : GraphEdge)])).countP
      (fun e => e.source == "start" && e.target == s.id) = 0 := by
    rw [List.countP_flatMap]
    apply List.sum_eq_zero
    intro x hx
    obtain ⟨t, ht, rfl⟩ := List.mem_map.mp hx
    by_cases hc : t.id ∈ dependentSteps w.steps <;>
      simp [hc, List.countP_cons, hstart t ht]
  rw [h1, h2, h3]

/-- C5 witness: in the example workflow, step `s1` has an empty dependency
list and the produced edge list contains exactly one edge `start → s1`. -/
theorem generateGraphData_start_edge_unique_witness :
    (generateGraphData exW).edges.countP
      (fun e => e.source == "start" && e.target == "s1") = 1 :=
  generateGraphData_start_edge_unique exW
    { id := "s1", agentId := "a1", agentName := "Fetcher", dependencies := [] }
    (by decide) (by decide) (by decide) (by decide)

/-- Helper: in a list of analysis entries with pairwise distinct keys,
`find?` by the key of a member returns that member. -/
lemma find?_stepId_eq_some :
    ∀ l : List StepAnalysis, (l.map (fun x => x.stepId)).Nodup →
      ∀ a ∈ l, l.find? (fun x => x.stepId == a.stepId) = some a := by
  intro l
  induction l with
  | nil => intro _ a ha; cases ha
  | cons b rest ih =>
    intro hnd a ha
    simp only [List.map_cons, List.nodup_cons, List.mem_map] at hnd
    obtain ⟨hnot, hnd'⟩ := hnd
    rcases List.mem_cons.mp ha with rfl | hmem
    · rw [List.find?_cons_of_pos _ (by simp)]
    · have hbne : b.stepId ≠ a.stepId := fun h => hnot ⟨a, hmem, h.symm⟩
      rw [List.find?_cons_of_neg _ (by simp [hbne])]
      exact ih hnd' a hmem

/-- Helper: the analysis map lookup finds a member entry when entry keys are
pairwise distinct. -/
lemma stepAnalysisLookup_eq_some (sa : List StepAnalysis)
    (hnodup : (sa.map (fun a => a.stepId)).Nodup)
    (a : StepAnalysis) (ha : a ∈ sa) :
    stepAnalysisLookup sa a.stepId = some a := by
  unfold stepAnalysisLookup
  apply find?_stepId_eq_some
  · simpa using hnodup
  · exact List.mem_reverse.mpr ha

/-- Helper: the analysis map lookup misses when no entry has the key. -/
lemma stepAnalysisLookup_eq_none (sa : List StepAnalysis) (k : String)
    (h : ∀ a ∈ sa, a.stepId ≠ k) :
    stepAnalysisLookup sa k = none := by
  unfold stepAnalysisLookup
  rw [List.find?_eq_none]
  intro x hx
  simp [h x (List.mem_reverse.mp hx)]

/-- Helper: the node at position `i + 1` is the agent node built from input
step `i`, with metric fields drawn through the analysis lookup. -/
lemma generateGraphData_nodes_getElem (w : Workflow) (i : Nat) (hi : i < w.steps.length) :
    (generateGraphData w).nodes[i + 1]? =
      some { id := w.steps[i].id
             label := w.steps[i].agentName
             type := "agent"
             latency := (stepAnalysisLookup (w.stepAnalysis.getD [])
               w.steps[i].id).map (fun a => a.latency)
             cost := (stepAnalysisLookup (w.stepAnalysis.getD [])
               w.steps[i].id).map (fun a => a.cost)
             isBottleneck := (stepAnalysisLookup (w.stepAnalysis.getD [])
               w.steps[i].id).map (fun a => a.isBottleneck) } := by
  simp only [generateGraphData, List.singleton_append]
  rw [List.getElem?_append_left (by simpa using hi), List.getElem?_cons_succ,
    List.getElem?_map, List.getElem?_eq_getElem hi]
  rfl

/-- C6: when the analysis entries have pairwise distinct step ids (the spec
keys `stepAnalysis` by step identifier), the agent node built for input step
`i` copies latency, cost, and bottleneck flag exactly from the entry matching
the step's id, and carries all three fields absent (`none`, not a zero/false
default) when no entry matches. -/
theorem generateGraphData_analysis_fields (w : Workflow) (i : Nat)
    (hi : i < w.steps.length)
    (hnodup : ((w.stepAnalysis.getD []).map (fun a => a.stepId)).Nodup) :
    (∀ a ∈ w.stepAnalysis.getD [], a.stepId = w.steps[i].id →
      (generateGraphData w).nodes[i + 1]? =
        some { id := w.steps[i].id, label := w.steps[i].agentName, type := "agent",
               latency := some a.latency, cost := some a.cost,
               isBottleneck := some a.isBottleneck }) ∧
    ((∀ a ∈ w.stepAnalysis.getD [], a.stepId ≠ w.steps[i].id) →
      (generateGraphData w).nodes[i + 1]? =
        some { id := w.steps[i].id, label := w.steps[i].agentName, type := "agent",
               latency := none, cost := none, isBottleneck := none }) := by
  constructor
  · intro a ha hak
    rw [generateGraphData_nodes_getElem w i hi, ← hak,
      stepAnalysisLookup_eq_some _ hnodup a ha]
    rfl
  · intro hnone
    rw [generateGraphData_nodes_getElem w i hi,
      stepAnalysisLookup_eq_none _ _ hnone]
    rfl

/-- C6 witness: in `exWA` (analysis entry for `s1` only), the node for step 0
carries exactly the entry's latency 5, cost 3, bottleneck true. -/
theorem generateGraphData_analysis_fields_witness :
    (generateGraphData exWA).nodes[0 + 1]? =
      some { id := "s1", label := "Fetcher", type := "agent",
             latency := some 5, cost := some 3, isBottleneck := some true } :=
  (generateGraphData_analysis_fields exWA 0 (by decide) (by decide)).1
    { stepId := "s1", latency := 5, cost := 3, isBottleneck := true }
    (by decide) (by decide)

/-- C3 counterexample: for the workflow `wGhost`, whose only step lists the
dependency `"ghost"` that is no step's id, the produced edge `ghost → s1` has
a source that is not the id of any node, so the builder does not guarantee
absence of dangling edge references. -/
theorem generateGraphData_dangling_edge :
    ((generateGraphData wGhost).edges.all (fun e =>
      ((generateGraphData wGhost).nodes.map (fun n => n.id)).contains e.source &&
      ((generateGraphData wGhost).nodes.map (fun n => n.id)).contains e.target)) = false := by
  decide

/-- Helper: the ids of the produced nodes are `start`, the step ids in input
order, and `end`. -/
lemma generateGraphData_node_ids (w : Workflow) :
    (generateGraphData w).nodes.map (fun n => n.id) =
      "start" :: (w.steps.map (fun s => s.id) ++ ["end"]) := by
  simp [generateGraphData, List.map_map]

/-- C3 amended: when every dependency identifier of every step is the id of
some step of the workflow, every edge's source and target identifier occurs
as the id of some node of the same graph data. -/
theorem generateGraphData_edges_reference_nodes (w : Workflow)
    (hdeps : ∀ t ∈ w.steps, ∀ d ∈ t.dependencies, ∃ u ∈ w.steps, u.id = d) :
    ∀ e ∈ (generateGraphData w).edges,
      e.source ∈ (generateGraphData w).nodes.map (fun n => n.id) ∧
      e.target ∈ (generateGraphData w).nodes.map (fun n => n.id) := by
  intro e he
  rw [generateGraphData_node_ids]
  have hid : ∀ u ∈ w.steps, u.id ∈
      "start" :: (w.steps.map (fun s => s.id) ++ ["end"]) := by
    intro u hu
    exact List.mem_cons_of_mem _ (List.mem_append_left _ (List.mem_map_of_mem _ hu))
  simp only [generateGraphData, List.mem_append, List.mem_flatMap] at he
  rcases he with (⟨t, ht, het⟩ | ⟨t, ht, het⟩) | ⟨t, ht, het⟩
  · by_cases hc : t.dependencies.length = 0
    · rw [if_pos hc] at het
      simp only [List.mem_singleton] at het
      subst het
      exact ⟨List.mem_cons_self _ _, hid t ht⟩
    · rw [if_neg hc] at het
      cases het
  · obtain ⟨d, hd, rfl⟩ := List.mem_map.mp het
    obtain ⟨u, hu, huid⟩ := hdeps t ht d hd
    exact ⟨huid ▸ hid u hu, hid t ht⟩
  · by_cases hc : t.id ∈ dependentSteps w.steps
    · rw [if_pos hc] at het
      cases het
    · rw [if_neg hc] at het
      simp only [List.mem_singleton] at het
      subst het
      refine ⟨hid t ht, ?_⟩
      exact List.mem_cons_of_mem _ (List.mem_append_right _ (List.mem_singleton.mpr rfl))

/-- C3 amended witness: in the example graph, the endpoints of the edge
`s1 → s2` both occur among the node ids. -/
theorem generateGraphData_edges_reference_nodes_witness :
    ("s1" : String) ∈ (generateGraphData exW).nodes.map (fun n => n.id) ∧
    ("s2" : String) ∈ (generateGraphData exW).nodes.map (fun n => n.id) :=
  generateGraphData_edges_reference_nodes exW (by decide)
    { source := "s1", target := "s2" } (by decide)

set_option maxRecDepth 40000 in
/-- C7 counterexample: a start node whose bottleneck flag is true is rendered
by `generateSVG` with class `node-bottleneck`, not `node-start`: the source
checks the bottleneck flag last and lets it override the variant class, while
the claim's first-match-wins order would keep `node-start`. -/
theorem svgNodeClass_start_bottleneck_counterexample :
    svgNodeClass bnStart = "node-bottleneck" ∧
    specNodeClass bnStart = "node-start" ∧
    containsSub (generateSVG { nodes := [bnStart], edges := [] } 800 600).data
      ("class=\"node-start\"".data) = false ∧
    containsSub (generateSVG { nodes := [bnStart], edges := [] } 800 600).data
      ("class=\"node-bottleneck\"".data) = true := by
  decide

/-- C7 amended: `generateSVG` assigns the node class with the bottleneck flag
taking top priority — flag true gives `node-bottleneck` for every variant,
including start and end; otherwise the class is `node-start` / `node-end` /
`node-agent` by variant. -/
theorem svgNodeClass_bottleneck_first (n : GraphNode)
    (h : n.type = "start" ∨ n.type = "end" ∨ n.type = "agent") :
    svgNodeClass n = specNodeClassAmended n := by
  unfold svgNodeClass specNodeClassAmended
  rcases h with h | h | h <;> rw [h] <;>
    by_cases hb : n.isBottleneck.getD false <;> simp [hb]

/-- C7 amended witness: a bottlenecked start node gets `node-bottleneck`
under both the implemented rule and the amended priority rule. -/
theorem svgNodeClass_bottleneck_first_witness :
    svgNodeClass bnStart = specNodeClassAmended bnStart :=
  svgNodeClass_bottleneck_first bnStart (Or.inl rfl)

/-- Graph data whose single node has a label containing XML-special
characters. -/
def dC8 : GraphData :=
  { nodes := [{ id := "n1", label := "<b>", type := "agent" }], edges := [] }

set_option maxRecDepth 40000 in
/-- C8: `generateSVG` interpolates `node.label` into the `<text>` element
with no XML escaping: the raw label `<b>` (angle brackets and all) occurs
verbatim in the output, and no entity-escaped form occurs.  The claim (and
the spec, which flags the omission as a defect) requires these characters to
be escaped. -/
theorem generateSVG_label_unescaped_eval :
    containsSub (generateSVG dC8 800 600).data (">\x3cb></text>".data) = true ∧
    containsSub (generateSVG dC8 800 600).data ("&lt;".data) = false ∧
    containsSub (generateSVG dC8 800 600).data ("&gt;".data) = false := by
  decide

set_option maxRecDepth 10000 in
/-- C9 counterexample: for the workflow `wArrow`, whose single step's agent
name is `x->y`, the DOT output contains 3 occurrences of `->` (one per edge
plus one inside the interpolated label) while the graph has only 2 edges. -/
theorem generateDot_arrow_count_counterexample :
    countArrows (generateDot (generateGraphData wArrow)).data = 3 ∧
    (generateGraphData wArrow).edges.length = 2 ∧
    countArrows (generateDot (generateGraphData wArrow)).data ≠
      (generateGraphData wArrow).edges.length := by
  decide

/-- Helper: unfolding `countArrows` one character at a time. -/
lemma countArrows_cons (a : Char) (l : List Char) :
    countArrows (a :: l) =
      (if a = '-' ∧ l.head? = some '>' then 1 else 0) + countArrows l := by
  cases l with
  | nil => simp [countArrows]
  | cons b t => simp [countArrows]

/-- Helper: occurrences of `->` in a concatenation are those of the parts
plus possibly one spanning the boundary. -/
lemma countArrows_append (s t : List Char) :
    countArrows (s ++ t) = countArrows s + countArrows t +
      (if s.getLast? = some '-' ∧ t.head? = some '>' then 1 else 0) := by
  induction s with
  | nil => simp [countArrows]
  | cons a s ih =>
    cases s with
    | nil =>
      simp only [List.cons_append, List.nil_append, countArrows_cons]
      simp [countArrows]
      exact Nat.add_comm _ _
    | cons b s' =>
      have h1 : (a :: b :: s') ++ t = a :: ((b :: s') ++ t) := by simp
      have h2 : ((b :: s') ++ t).head? = some b := by simp
      rw [List.getLast?_cons_cons, h1, countArrows_cons, h2, ih,
        countArrows_cons a (b :: s'), List.head?_cons]
      ring

/-- Helper: the boundary contributes nothing when the right part does not
start with `>`. -/
lemma countArrows_append_head (s t : List Char) (h : t.head? ≠ some '>') :
    countArrows (s ++ t) = countArrows s + countArrows t := by
  rw [countArrows_append, if_neg (fun hc => h hc.2)]
  ring

/-- Helper: the boundary contributes nothing when the left part does not end
with `-`. -/
lemma countArrows_append_last (s t : List Char) (h : s.getLast? ≠ some '-') :
    countArrows (s ++ t) = countArrows s + countArrows t := by
  rw [countArrows_append, if_neg (fun hc => h hc.1)]
  ring

/-- String-level variant of `countArrows_append_head`. -/
lemma countArrowsS_append_head (x y : String) (h : y.data.head? ≠ some '>') :
    countArrows (x ++ y).data = countArrows x.data + countArrows y.data := by
  rw [String.data_append]
  exact countArrows_append_head _ _ h

/-- String-level variant of `countArrows_append_last`. -/
lemma countArrowsS_append_last (x y : String) (h : x.data.getLast? ≠ some '-') :
    countArrows (x ++ y).data = countArrows x.data + countArrows y.data := by
  rw [String.data_append]
  exact countArrows_append_last _ _ h

/-- Helper: a concatenation whose left part starts with a character other
than `>` does not start with `>`. -/
lemma head?_append_ne (x y : String) (c : Char) (hc : x.data.head? = some c)
    (hne : c ≠ '>') :
    (x ++ y).data.head? ≠ some '>' := by
  rw [String.data_append, List.head?_append, hc, Option.or_some]
  simp [hne]

/-- Helper: the attribute string of a node line contains exactly the arrow
occurrences of the node's label (all literal fragments are arrow-free and no
occurrence can span a fragment boundary). -/
lemma countArrows_dotAttrs (n : GraphNode) :
    countArrows (dotAttrs n).data = countArrows n.label.data := by
  unfold dotAttrs
  have hbase : countArrows ("label=\"" ++ (n.label ++ "\"")).data =
      countArrows n.label.data := by
    rw [countArrowsS_append_last _ _ (by decide),
      countArrowsS_append_head _ _ (by decide)]
    have h1 : countArrows "label=\"".data = 0 := by decide
    have h2 : countArrows "\"".data = 0 := by decide
    rw [h1, h2]
    ring
  split_ifs <;>
    first
      | exact hbase
      | · rw [countArrowsS_append_head _ _ (by decide), hbase]
          simp [show countArrows ", shape=circle, style=filled, fillcolor=green".data = 0
              from by decide,
            show countArrows ", shape=circle, style=filled, fillcolor=red".data = 0
              from by decide,
            show countArrows ", style=filled, fillcolor=orange".data = 0 from by decide]

/-- Helper: a node line of the DOT output contains exactly the arrow
occurrences of the node's id and label. -/
lemma countArrows_dotNodeLine (n : GraphNode) :
    countArrows (dotNodeLine n).data =
      countArrows n.id.data + countArrows n.label.data := by
  unfold dotNodeLine
  rw [countArrowsS_append_last _ _ (by decide),
    countArrowsS_append_head _ _ (head?_append_ne _ _ '"' (by decide) (by decide)),
    countArrowsS_append_last _ _ (by decide),
    countArrowsS_append_head _ _ (by decide),
    countArrows_dotAttrs]
  have h1 : countArrows "  \"".data = 0 := by decide
  have h2 : countArrows "\" [".data = 0 := by decide
  have h3 : countArrows "];\n".data = 0 := by decide
  rw [h1, h2, h3]
  ring

/-- Helper: an edge line of the DOT output contains exactly one arrow (the
literal `->` between the quoted endpoints) plus any occurrences inside the
endpoint identifiers. -/
lemma countArrows_dotEdgeLine (e : GraphEdge) :
    countArrows (dotEdgeLine e).data =
      countArrows e.source.data + countArrows e.target.data + 1 := by
  unfold dotEdgeLine
  rw [countArrowsS_append_last _ _ (by decide),
    countArrowsS_append_head _ _ (head?_append_ne _ _ '"' (by decide) (by decide)),
    countArrowsS_append_last _ _ (by decide),
    countArrowsS_append_head _ _ (by decide)]
  have h1 : countArrows "  \"".data = 0 := by decide
  have h2 : countArrows "\" -> \"".data = 1 := by decide
  have h3 : countArrows "\";\n".data = 0 := by decide
  rw [h1, h2, h3]
  ring

/-- Helper: arrow occurrences in a left fold that appends one piece per list
element, when no piece starts with `>`. -/
lemma countArrows_foldl {α : Type} (f : α → String) (l : List α) (init : String)
    (hhead : ∀ x, (f x).data.head? ≠ some '>') :
    countArrows (l.foldl (fun acc x => acc ++ f x) init).data =
      countArrows init.data + (l.map (fun x => countArrows (f x).data)).sum := by
  induction l generalizing init with
  | nil => simp
  | cons x l ih =>
    simp only [List.foldl_cons, List.map_cons, List.sum_cons]
    rw [ih (init ++ f x), countArrowsS_append_head _ _ (hhead x)]
    ring

/-- Helper: `countArrows_foldl` specialised to the node-line fold. -/
lemma countArrows_foldl_nodeLines (l : List GraphNode) (init : String) :
    countArrows (l.foldl (fun acc node => acc ++ dotNodeLine node) init).data =
      countArrows init.data +
        (l.map (fun n => countArrows (dotNodeLine n).data)).sum :=
  countArrows_foldl dotNodeLine l init
    (fun n => head?_append_ne _ _ ' ' (by decide) (by decide))

/-- Helper: `countArrows_foldl` specialised to the edge-line fold. -/
lemma countArrows_foldl_edgeLines (l : List GraphEdge) (init : String) :
    countArrows (l.foldl (fun acc edge => acc ++ dotEdgeLine edge) init).data =
      countArrows init.data +
        (l.map (fun e => countArrows (dotEdgeLine e).data)).sum :=
  countArrows_foldl dotEdgeLine l init
    (fun e => head?_append_ne _ _ ' ' (by decide) (by decide))

/-- Helper: total arrow occurrences in the DOT output, as a sum over nodes
and edges. -/
lemma countArrows_generateDot (d : GraphData) :
    countArrows (generateDot d).data =
      (d.nodes.map (fun n => countArrows n.id.data + countArrows n.label.data)).sum +
      (d.edges.map (fun e =>
        countArrows e.source.data + countArrows e.target.data + 1)).sum := by
  simp only [generateDot]
  rw [countArrowsS_append_head _ _ (by decide),
    countArrows_foldl_edgeLines, countArrows_foldl_nodeLines]
  have hhdr : countArrows (("digraph workflow \x7b\n" ++ "  rankdir=LR;\n") ++
      "  node [shape=box, style=rounded];\n").data = 0 := by decide
  have hftr : countArrows "\x7d\n".data = 0 := by decide
  rw [hhdr, hftr]
  simp only [countArrows_dotNodeLine, countArrows_dotEdgeLine]
  ring

/-- Helper: every node of a built graph has an arrow-free id and label when
the workflow's step ids and agent names are arrow-free. -/
lemma generateGraphData_nodes_arrow_free (w : Workflow)
    (hsteps : ∀ t ∈ w.steps,
      countArrows t.id.data = 0 ∧ countArrows t.agentName.data = 0) :
    ∀ n ∈ (generateGraphData w).nodes,
      countArrows n.id.data = 0 ∧ countArrows n.label.data = 0 := by
  intro n hn
  simp only [generateGraphData, List.singleton_append, List.mem_append, List.mem_cons,
    List.mem_map, List.mem_singleton] at hn
  rcases hn with (rfl | ⟨s, hs, rfl⟩) | (rfl | h)
  · exact ⟨by decide, by decide⟩
  · exact hsteps s hs
  · exact ⟨by decide, by decide⟩
  · cases h

/-- Helper: every edge of a built graph has arrow-free endpoints when the
workflow's step ids and dependency identifiers are arrow-free. -/
lemma generateGraphData_edges_arrow_free (w : Workflow)
    (hsteps : ∀ t ∈ w.steps, countArrows t.id.data = 0 ∧
      ∀ d ∈ t.dependencies, countArrows d.data = 0) :
    ∀ e ∈ (generateGraphData w).edges,
      countArrows e.source.data = 0 ∧ countArrows e.target.data = 0 := by
  intro e he
  simp only [generateGraphData, List.mem_append, List.mem_flatMap] at he
  rcases he with (⟨t, ht, het⟩ | ⟨t, ht, het⟩) | ⟨t, ht, het⟩
  · by_cases hc : t.dependencies.length = 0
    · rw [if_pos hc] at het
      simp only [List.mem_singleton] at het
      subst het
      exact ⟨show countArrows ("start" : String).data = 0 from by decide, (hsteps t ht).1⟩
    · rw [if_neg hc] at het
      cases het
  · obtain ⟨d, hd, rfl⟩ := List.mem_map.mp het
    exact ⟨(hsteps t ht).2 d hd, (hsteps t ht).1⟩
  · by_cases hc : t.id ∈ dependentSteps w.steps
    · rw [if_pos hc] at het
      cases het
    · rw [if_neg hc] at het
      simp only [List.mem_singleton] at het
      subst het
      exact ⟨(hsteps t ht).1, show countArrows ("end" : String).data = 0 from by decide⟩

/-- Helper: a sum of mapped values all equal to 1 is the list length. -/
lemma map_sum_const_one {α : Type} (l : List α) (f : α → Nat)
    (h : ∀ x ∈ l, f x = 1) :
    (l.map f).sum = l.length := by
  induction l with
  | nil => rfl
  | cons x t ih =>
    simp [h x (List.mem_cons_self x t),
      ih (fun y hy => h y (List.mem_cons_of_mem x hy))]
    omega

/-- Helper: a left fold that appends one piece per element factors as the
initial string followed by some tail. -/
lemma foldl_append_factor {α : Type} (f : α → String) (l : List α) (init : String) :
    ∃ t : String, l.foldl (fun acc x => acc ++ f x) init = init ++ t := by
  induction l generalizing init with
  | nil => exact ⟨"", (String.append_empty init).symm⟩
  | cons x l ih =>
    obtain ⟨t, ht⟩ := ih (init ++ f x)
    exact ⟨f x ++ t, by rw [List.foldl_cons, ht, String.append_assoc]⟩

/-- C9 amended: for every workflow whose step ids, agent names, and
dependency identifiers contain no occurrence of `->`, the string
`generateDot (generateGraphData w)` starts with `digraph workflow \x7b`, ends
with `\x7d` followed by a newline, and contains exactly as many occurrences
of `->` as there are edges.  (The first two conjuncts need no hypothesis;
the occurrence count fails without it, since labels and quoted identifiers
are interpolated verbatim.) -/
theorem generateDot_shape (w : Workflow)
    (harrow : ∀ t ∈ w.steps, countArrows t.id.data = 0 ∧
      countArrows t.agentName.data = 0 ∧
      ∀ d ∈ t.dependencies, countArrows d.data = 0) :
    (∃ r : String, generateDot (generateGraphData w) = "digraph workflow \x7b" ++ r) ∧
    (∃ r : String, generateDot (generateGraphData w) = r ++ "\x7d\n") ∧
    countArrows (generateDot (generateGraphData w)).data =
      (generateGraphData w).edges.length := by
  refine ⟨?_, ?_, ?_⟩
  · simp only [generateDot]
    obtain ⟨t1, ht1⟩ := foldl_append_factor dotNodeLine (generateGraphData w).nodes
      (("digraph workflow \x7b\n" ++ "  rankdir=LR;\n") ++
        "  node [shape=box, style=rounded];\n")
    rw [ht1]
    obtain ⟨t2, ht2⟩ := foldl_append_factor dotEdgeLine (generateGraphData w).edges
      ((("digraph workflow \x7b\n" ++ "  rankdir=LR;\n") ++
        "  node [shape=box, style=rounded];\n") ++ t1)
    rw [ht2]
    refine ⟨"\n" ++ ("  rankdir=LR;\n" ++ ("  node [shape=box, style=rounded];\n" ++
      (t1 ++ (t2 ++ "\x7d\n")))), ?_⟩
    rw [show ("digraph workflow \x7b\n" : String) = "digraph workflow \x7b" ++ "\n"
      from by decide]
    simp only [String.append_assoc]
  · simp only [generateDot]
    exact ⟨_, rfl⟩
  · rw [countArrows_generateDot]
    have hn : ((generateGraphData w).nodes.map
        (fun n => countArrows n.id.data + countArrows n.label.data)).sum = 0 := by
      apply List.sum_eq_zero
      intro x hx
      obtain ⟨n, hn, rfl⟩ := List.mem_map.mp hx
      have := generateGraphData_nodes_arrow_free w
        (fun t ht => ⟨(harrow t ht).1, (harrow t ht).2.1⟩) n hn
      omega
    have he : ((generateGraphData w).edges.map
        (fun e => countArrows e.source.data + countArrows e.target.data + 1)).sum =
        (generateGraphData w).edges.length := by
      apply map_sum_const_one
      intro e hemem
      have := generateGraphData_edges_arrow_free w
        (fun t ht => ⟨(harrow t ht).1, (harrow t ht).2.2⟩) e hemem
      omega
    rw [hn, he]
    ring

/-- C9 amended witness: for the example workflow (arrow-free names), the DOT
output contains exactly as many `->` occurrences as the graph has edges. -/
theorem generateDot_shape_witness :
    countArrows (generateDot (generateGraphData exW)).data =
      (generateGraphData exW).edges.length :=
  (generateDot_shape exW (by decide)).2.2
